import Mathlib

/-!
Verification of the repository metrics and heuristic scoring engine of the
LOL-VibeCoder analyzer.  The definitions below are a shallow embedding of
`src/backend/src/analyzer.js` and `src/backend/src/pythonIntegration.js`:
JavaScript numbers are modelled as `Nat`/`Int`/`Rat` with exact arithmetic,
strings as Lean `String`, JS objects as structures, and the directory tree
walked by the analyzer as an inductive file tree.
-/

set_option maxRecDepth 4000

/-- JS regex word character class `\w` = `[A-Za-z0-9_]`. -/
def isWordChar (c : Char) : Bool :=
  ('a' ≤ c && c ≤ 'z') || ('A' ≤ c && c ≤ 'Z') || ('0' ≤ c && c ≤ '9') || c = '_'

/-- JS whitespace (as matched by `\s`, `String.prototype.trim`), restricted to
the code points that can realistically occur in analyzed source text. -/
def isJsSpace (c : Char) : Bool :=
  c = ' ' || c = '\t' || c = '\n' || c = '\r' || c = Char.ofNat 11 || c = Char.ofNat 12 || c = Char.ofNat 160

/-- `String.prototype.trim` on a character list. -/
def jsTrimList (l : List Char) : List Char :=
  ((l.dropWhile isJsSpace).reverse.dropWhile isJsSpace).reverse

/-- `String.prototype.trim`. -/
def jsTrimS (s : String) : String :=
  String.mk (jsTrimList s.data)

/-- `replace(/\s+/g, ' ')`: collapse each maximal whitespace run to one space. -/
def collapseWS : List Char → List Char
  | [] => []
  | c :: rest =>
    let r := collapseWS rest
    if isJsSpace c then
      match r with
      | d :: _ => if d = ' ' then r else ' ' :: r
      | [] => [' ']
    else c :: r

/-- `line.trim().replace(/\s+/g, ' ')` from `detectRepetitivePatterns`. -/
def normalizeLine (l : String) : String :=
  String.mk (collapseWS (jsTrimList l.data))

/-- `String.prototype.split` with separator `"\n"`, on character lists. -/
def splitCharsNl : List Char → List (List Char)
  | [] => [[]]
  | c :: rest =>
    let r := splitCharsNl rest
    if c = '\n' then [] :: r
    else
      match r with
      | h :: t => (c :: h) :: t
      | [] => [[c]]

/-- `content.split('\n')`. -/
def splitLinesS (s : String) : List String :=
  (splitCharsNl s.data).map String.mk

/-- Match a literal character-list prefix, returning the rest on success. -/
def dropPrefixCh : List Char → List Char → Option (List Char)
  | [], s => some s
  | _, [] => none
  | c :: w, d :: s => if c = d then dropPrefixCh w s else none

/-- Whether a needle list is a prefix of a haystack list. -/
def leadsWith (needle hay : List Char) : Bool :=
  match dropPrefixCh needle hay with
  | some _ => true
  | none => false

/-- Whether a needle occurs as a contiguous substring of a haystack. -/
def listContains (needle : List Char) : List Char → Bool
  | [] => needle.isEmpty
  | c :: rest => leadsWith needle (c :: rest) || listContains needle rest

/-- Case-insensitive substring test, as a JS regex without anchors under `/i`. -/
def containsCI (hay needle : String) : Bool :=
  listContains (needle.toLower.data) (hay.toLower.data)

/-- `String.prototype.startsWith`, computed on the character lists. -/
def strStartsWith (s pre : String) : Bool :=
  leadsWith pre.data s.data

/-- `String.prototype.endsWith`, computed on the character lists. -/
def strEndsWith (s suf : String) : Bool :=
  leadsWith suf.data.reverse s.data.reverse

/-- A `\b` immediately after a matched word character holds iff the next
character is absent or not a word character. -/
def wordBoundaryAfter : List Char → Bool
  | [] => true
  | c :: _ => !isWordChar c

/-- Try the alternatives of `\b(w1|w2|...)\b` in order at the current position,
backtracking to the next alternative when the trailing `\b` fails (all the
word-list alternatives consist of word characters only). -/
def matchAltWB (alts : List (List Char)) (s : List Char) : Option (List Char) :=
  match alts with
  | [] => none
  | w :: ws =>
    match dropPrefixCh w s with
    | some rest => if wordBoundaryAfter rest then some rest else matchAltWB ws s
    | none => matchAltWB ws s

/-- Global scan counting matches of `\b(w1|...)\b`, advancing past each match,
tracking whether the previous character was a word character for `\b`. -/
def countAltScan (alts : List (List Char)) : Nat → Bool → List Char → Nat
  | 0, _, _ => 0
  | _ + 1, _, [] => 0
  | fuel + 1, prevW, c :: rest =>
    if prevW = isWordChar c then
      countAltScan alts fuel (isWordChar c) rest
    else
      match matchAltWB alts (c :: rest) with
      | some rest2 => 1 + countAltScan alts fuel true rest2
      | none => countAltScan alts fuel (isWordChar c) rest

/-- Count of matches of `\b(w1|...)\b` with global flag over a whole string. -/
def countAltMatches (alts : List String) (content : String) : Nat :=
  countAltScan (alts.map String.data) content.data.length false content.data

/-- Alternatives of `\b(p1|p2|...)\w*\b`: the first alternative that is a
prefix wins and the greedy `\w*` then swallows the rest of the word run. -/
def matchPrefixWB (alts : List (List Char)) (s : List Char) : Option (List Char) :=
  match alts with
  | [] => none
  | w :: ws =>
    match dropPrefixCh w s with
    | some rest => some (rest.dropWhile isWordChar)
    | none => matchPrefixWB ws s

/-- Global scan counting matches of `\b(p1|...)\w*\b`. -/
def countPrefixScan (alts : List (List Char)) : Nat → Bool → List Char → Nat
  | 0, _, _ => 0
  | _ + 1, _, [] => 0
  | fuel + 1, prevW, c :: rest =>
    if prevW = isWordChar c then
      countPrefixScan alts fuel (isWordChar c) rest
    else
      match matchPrefixWB alts (c :: rest) with
      | some rest2 => 1 + countPrefixScan alts fuel true rest2
      | none => countPrefixScan alts fuel (isWordChar c) rest

/-- Count of matches of `\b(p1|...)\w*\b` with global flag over a string. -/
def countPrefixMatches (alts : List String) (content : String) : Nat :=
  countPrefixScan (alts.map String.data) content.data.length false content.data

/-- Summed match count of the three generic-name regexes of
`analyzeCodeContent` (`analyzer.js` lines 379-389). -/
def genericNamesCount (content : String) : Nat :=
  countAltMatches ["data", "result", "value", "item", "temp", "tempVar", "tempValue", "tempData"] content
    + countAltMatches ["user", "users", "item", "items", "data", "datas", "list", "lists"] content
    + countPrefixMatches ["handle", "process", "execute", "perform", "do", "run"] content

/-- Consume one-or-more characters satisfying `p` (greedy `+`). -/
def pPlus (p : Char → Bool) (s : List Char) : Option (List Char) :=
  match s with
  | c :: rest => if p c then some (rest.dropWhile p) else none
  | [] => none

/-- Consume zero-or-more characters satisfying `p` (greedy `*`). -/
def pStarOf (p : Char → Bool) (s : List Char) : Option (List Char) :=
  some (s.dropWhile p)

/-- Consume one given character. -/
def pCh (c : Char) (s : List Char) : Option (List Char) :=
  match s with
  | d :: rest => if d = c then some rest else none
  | [] => none

/-- `[\s\S]*?x`: lazily consume up to and including the first occurrence of
`x`; fail when there is none. -/
def pLazyThrough (c : Char) (s : List Char) : Option (List Char) :=
  match s.dropWhile (fun d => !(d = c)) with
  | _ :: rest => some rest
  | [] => none

/-- One match attempt of `/function\s+\w+\s*\(\s*\)\s*\{[\s\S]*?\}/`. -/
def matchFunctionDecl (s : List Char) : Option (List Char) :=
  (dropPrefixCh ("function".data) s).bind fun s1 =>
  (pPlus isJsSpace s1).bind fun s2 =>
  (pPlus isWordChar s2).bind fun s3 =>
  (pStarOf isJsSpace s3).bind fun s4 =>
  (pCh '(' s4).bind fun s5 =>
  (pStarOf isJsSpace s5).bind fun s6 =>
  (pCh ')' s6).bind fun s7 =>
  (pStarOf isJsSpace s7).bind fun s8 =>
  (pCh '{' s8).bind fun s9 =>
  pLazyThrough '}' s9

/-- One match attempt of `/class\s+\w+\s*\{[\s\S]*?\}/`. -/
def matchClassDecl (s : List Char) : Option (List Char) :=
  (dropPrefixCh ("class".data) s).bind fun s1 =>
  (pPlus isJsSpace s1).bind fun s2 =>
  (pPlus isWordChar s2).bind fun s3 =>
  (pStarOf isJsSpace s3).bind fun s4 =>
  (pCh '{' s4).bind fun s5 =>
  pLazyThrough '}' s5

/-- One match attempt of `/const\s+\w+\s*=\s*\([^)]*\)\s*=>\s*\{[\s\S]*?\}/`. -/
def matchConstArrow (s : List Char) : Option (List Char) :=
  (dropPrefixCh ("const".data) s).bind fun s1 =>
  (pPlus isJsSpace s1).bind fun s2 =>
  (pPlus isWordChar s2).bind fun s3 =>
  (pStarOf isJsSpace s3).bind fun s4 =>
  (pCh '=' s4).bind fun s5 =>
  (pStarOf isJsSpace s5).bind fun s6 =>
  (pCh '(' s6).bind fun s7 =>
  (pStarOf (fun d => !(d = ')')) s7).bind fun s8 =>
  (pCh ')' s8).bind fun s9 =>
  (pStarOf isJsSpace s9).bind fun s10 =>
  (pCh '=' s10).bind fun s11 =>
  (pCh '>' s11).bind fun s12 =>
  (pStarOf isJsSpace s12).bind fun s13 =>
  (pCh '{' s13).bind fun s14 =>
  pLazyThrough '}' s14

/-- Global scan with a single-position match attempt function: on a match,
continue after it; otherwise advance one character. -/
def countMatchesScan (m : List Char → Option (List Char)) : Nat → List Char → Nat
  | 0, _ => 0
  | _ + 1, [] => 0
  | fuel + 1, c :: rest =>
    match m (c :: rest) with
    | some rest2 => 1 + countMatchesScan m fuel rest2
    | none => countMatchesScan m fuel rest

/-- Summed match count of the three boilerplate regexes of
`analyzeCodeContent` (`analyzer.js` lines 398-408). -/
def boilerplateCodeCount (content : String) : Nat :=
  countMatchesScan matchFunctionDecl content.data.length content.data
    + countMatchesScan matchClassDecl content.data.length content.data
    + countMatchesScan matchConstArrow content.data.length content.data

/-- The four AI-pattern counters accumulated per traversal (`analyzer.js`
lines 149-154). -/
structure AiPatterns where
  genericNames : Nat
  perfectFormatting : Nat
  boilerplateCode : Nat
  repetitivePatterns : Nat
deriving DecidableEq, Repr

/-- Remove duplicates keeping first occurrences, threading the set of values
already seen; this is the JS idiom `arr.filter((x, i) => arr.indexOf(x) === i)`
and the key set of a JS object built by insertion. -/
def dedupGo (seen : List String) : List String → List String
  | [] => []
  | h :: t => if h ∈ seen then dedupGo seen t else h :: dedupGo (h :: seen) t

/-- Duplicate removal keeping the first occurrence of each string. -/
def dedupFirst (l : List String) : List String :=
  dedupGo [] l

/-- Index of the first occurrence of a string in a list (length on a miss). -/
def firstIdx (a : String) : List String → Nat
  | [] => 0
  | b :: t => if b = a then 0 else firstIdx a t + 1

/-- `checkIndentationConsistency` (`analyzer.js` lines 422-437): leading
whitespace lengths of non-empty lines; ratio of the better of the
divisible-by-4 count and the positive-indent count (the source's
`indent % 1 === 0 && indent > 0`). -/
def checkIndentationConsistency (lines : List String) : ℚ :=
  let indentations := (lines.filter (fun l => (jsTrimS l).length > 0)).map
    (fun l => (l.data.takeWhile isJsSpace).length)
  if indentations.length = 0 then 1
  else
    let spaces := (indentations.filter (fun i => i % 4 == 0)).length
    let tabs := (indentations.filter (fun i => i % 1 == 0 && decide (i > 0))).length
    ((max spaces tabs : Nat) : ℚ) / (indentations.length : ℚ)

/-- Count of non-empty lines, as filtered by the detectors
(`line.trim().length > 0`). -/
def nonEmptyLineCount (content : String) : Nat :=
  ((splitLinesS content).filter (fun l => (jsTrimS l).length > 0)).length

/-- The normalized forms of the non-empty lines
(`detectRepetitivePatterns`, `analyzer.js` lines 445-452). -/
def normalizedLines (content : String) : List String :=
  ((splitLinesS content).filter (fun l => (jsTrimS l).length > 0)).map normalizeLine

/-- The source's `repeatedLines`: the number of distinct normalized forms
(keys of the `lineCounts` object) whose count exceeds 1 (`analyzer.js`
line 455). -/
def distinctRepeatCount (content : String) : Nat :=
  ((dedupFirst (normalizedLines content)).filter
    (fun f => decide ((normalizedLines content).count f > 1))).length

/-- `detectRepetitivePatterns` (`analyzer.js` lines 444-457): ratio of
distinct normalized line forms occurring more than once to the number of
non-empty lines; `0` below the 5-line floor. -/
def detectRepetitivePatterns (content : String) : ℚ :=
  if nonEmptyLineCount content < 5 then 0
  else (distinctRepeatCount content : ℚ) / (nonEmptyLineCount content : ℚ)

/-- `analyzeCodeContent` (`analyzer.js` lines 375-415): run the four pattern
detectors over the file content and bump each tripped counter by one.  The
source's `ext` parameter is unused in its body. -/
def analyzeCodeContent (content : String) (_ext : String) (ap : AiPatterns) : AiPatterns :=
  let lines := splitLinesS content
  let genericCount := genericNamesCount content
  let ap1 := if genericCount > 5 then { ap with genericNames := ap.genericNames + 1 } else ap
  let indentationConsistency := checkIndentationConsistency lines
  let ap2 := if indentationConsistency > (95 : ℚ) / 100 then
    { ap1 with perfectFormatting := ap1.perfectFormatting + 1 } else ap1
  let boilerplateCount := boilerplateCodeCount content
  let ap3 := if boilerplateCount > 3 then
    { ap2 with boilerplateCode := ap2.boilerplateCode + 1 } else ap2
  let repetitive := detectRepetitivePatterns content
  if repetitive > (3 : ℚ) / 10 then
    { ap3 with repetitivePatterns := ap3.repetitivePatterns + 1 } else ap3

/-- The text-file extension allow-list of `isTextFile` (`analyzer.js`
lines 294-305). -/
def textExtensions : List String :=
  [".js", ".jsx", ".ts", ".tsx", ".py", ".java", ".cpp", ".c", ".h",
   ".cs", ".php", ".rb", ".go", ".rs", ".swift", ".kt", ".scala",
   ".html", ".css", ".scss", ".sass", ".less", ".vue", ".svelte",
   ".json", ".xml", ".yaml", ".yml", ".md", ".txt", ".sh", ".bat",
   ".ps1", ".sql", ".r", ".m", ".scm", ".lisp", ".clj", ".hs",
   ".ml", ".fs", ".vb", ".dart", ".elm", ".ex", ".exs", ".erl"]

/-- `isTextFile` (`analyzer.js` lines 294-305). -/
def isTextFile (ext : String) : Bool :=
  textExtensions.contains ext

/-- The main-code extension allow-list of `isMainCodeFile` (`analyzer.js`
lines 359-367). -/
def mainCodeExtensions : List String :=
  [".js", ".jsx", ".ts", ".tsx", ".py", ".java", ".cpp", ".c", ".h",
   ".cs", ".php", ".rb", ".go", ".rs", ".swift", ".kt", ".scala",
   ".vue", ".svelte", ".dart", ".elm", ".ex", ".exs", ".erl"]

/-- `isMainCodeFile` (`analyzer.js` lines 359-367). -/
def isMainCodeFile (ext : String) : Bool :=
  mainCodeExtensions.contains ext

/-- The per-language-family comment prefix test of `countCommentLines`
(`analyzer.js` lines 323-348), applied to an already trimmed line. -/
def lineIsComment (ext : String) (trimmed : String) : Bool :=
  if ext = ".js" ∨ ext = ".jsx" ∨ ext = ".ts" ∨ ext = ".tsx" then
    strStartsWith trimmed "//" || strStartsWith trimmed "/*" || strStartsWith trimmed "*"
  else if ext = ".py" then
    strStartsWith trimmed "#"
  else if ext = ".java" ∨ ext = ".cpp" ∨ ext = ".c" ∨ ext = ".h" ∨ ext = ".cs" then
    strStartsWith trimmed "//" || strStartsWith trimmed "/*" || strStartsWith trimmed "*"
  else if ext = ".html" ∨ ext = ".xml" then
    strStartsWith trimmed "<!--"
  else if ext = ".css" ∨ ext = ".scss" ∨ ext = ".sass" then
    strStartsWith trimmed "/*" || strStartsWith trimmed "*"
  else if ext = ".sh" ∨ ext = ".bat" ∨ ext = ".ps1" then
    strStartsWith trimmed "#"
  else false

/-- `countCommentLines` (`analyzer.js` lines 313-352): count the non-empty
lines whose trimmed form matches the family's comment prefixes. -/
def countCommentLines (content : String) (ext : String) : Nat :=
  ((splitLinesS content).filter (fun line =>
    let trimmed := jsTrimS line
    decide (trimmed.length > 0) && lineIsComment ext trimmed)).length

/-- The union of the six extension families that `countCommentLines`
recognizes at all. -/
def commentFamilyExts : List String :=
  [".js", ".jsx", ".ts", ".tsx", ".py", ".java", ".cpp", ".c", ".h", ".cs",
   ".html", ".xml", ".css", ".scss", ".sass", ".sh", ".bat", ".ps1"]

/-- A retained code sample (`analyzer.js` lines 253-258). -/
structure CodeSample where
  file : String
  extension : String
  sample : String
  lines : Nat
deriving DecidableEq, Repr

/-- The mutable `stats` accumulator of `computeMetrics` (`analyzer.js`
lines 141-155); `fileTypes` is an insertion-ordered association list like a
JS object. -/
structure Stats where
  totalFiles : Nat
  totalLines : Nat
  commentLines : Nat
  hasReadme : Bool
  hasTests : Bool
  fileTypes : List (String × Nat)
  codeSamples : List CodeSample
  aiPatterns : AiPatterns
deriving DecidableEq, Repr

/-- The zero-initialized accumulator of `computeMetrics`. -/
def initialStats : Stats :=
  { totalFiles := 0, totalLines := 0, commentLines := 0, hasReadme := false,
    hasTests := false, fileTypes := [], codeSamples := [],
    aiPatterns := { genericNames := 0, perfectFormatting := 0,
                    boilerplateCode := 0, repetitivePatterns := 0 } }

/-- `isTestFile` (`analyzer.js` lines 275-287): any of the five
case-insensitive patterns matching the name or the full path. -/
def isTestFile (fileName filePath : String) : Bool :=
  ["test", "spec", "__tests__", ".test.", ".spec."].any (fun p =>
    containsCI fileName p || containsCI filePath p)

/-- `path.extname` on a base name: the suffix from the last dot, empty when
there is no dot or the only dot is the leading character. -/
def extname (name : String) : String :=
  let cs := name.data
  let revTail := cs.reverse.takeWhile (fun c => !(c = '.'))
  if revTail.length = cs.length then ""
  else if revTail.length + 1 = cs.length then ""
  else String.mk ('.' :: revTail.reverse)

/-- Increment a key of a JS-object-like association list
(`stats.fileTypes[ext] = (stats.fileTypes[ext] || 0) + 1`). -/
def bumpAssoc (m : List (String × Nat)) (k : String) : List (String × Nat) :=
  match m with
  | [] => [(k, 1)]
  | (k2, v) :: rest => if k2 = k then (k2, v + 1) :: rest else (k2, v) :: bumpAssoc rest k

/-- `extractCodeSample` (`analyzer.js` lines 465-481). -/
def extractCodeSample (content : String) (_ext : String) : Option String :=
  let lines := splitLinesS content
  let sample := String.intercalate "\n" (lines.take 50)
  let sample2 := if sample.length > 2000 then sample.take 2000 ++ "..." else sample
  if (jsTrimS sample2).length > 100 then some sample2 else none

/-- `analyzeFile` (`analyzer.js` lines 214-267), for a file whose content is
readable as text. -/
def analyzeFile (filePath fileName content : String) (s : Stats) : Stats :=
  let ext := (extname fileName).toLower
  let s1 := if strStartsWith fileName.toLower "readme" then { s with hasReadme := true } else s
  let s2 := if isTestFile fileName filePath then { s1 with hasTests := true } else s1
  let s3 := if ext ≠ "" then { s2 with fileTypes := bumpAssoc s2.fileTypes ext } else s2
  if isTextFile ext then
    let lines := splitLinesS content
    let s4 := { s3 with
      totalFiles := s3.totalFiles + 1,
      totalLines := s3.totalLines + lines.length,
      commentLines := s3.commentLines + countCommentLines content ext,
      aiPatterns := analyzeCodeContent content ext s3.aiPatterns }
    if isMainCodeFile ext ∧ s4.codeSamples.length < 20 then
      match extractCodeSample content ext with
      | some smp => { s4 with codeSamples := s4.codeSamples ++
          [{ file := fileName, extension := ext, sample := smp, lines := lines.length }] }
      | none => s4
    else s4
  else s3

/-- A file-system tree as seen by the Directory Walker. -/
inductive FsTree where
  | file (name : String) (content : String)
  | dir (name : String) (children : List FsTree)

/-- Name of a directory entry. -/
def fsName : FsTree → String
  | FsTree.file n _ => n
  | FsTree.dir n _ => n

/-- The skip test of `analyzeDirectory` (`analyzer.js` lines 193-196):
hidden entries and the fixed ignore-set. -/
def skipEntry (name : String) : Bool :=
  strStartsWith name "." || ["node_modules", "dist", "build", ".git"].contains name

/-- `analyzeDirectory` (`analyzer.js` lines 184-207): left-to-right walk over
the entries of a directory, skipping ignored names, descending into kept
directories and analyzing kept files. -/
def analyzeDirectory (dirPath : String) (s : Stats) : List FsTree → Stats
  | [] => s
  | FsTree.file name content :: rest =>
    let s2 := if skipEntry name then s else analyzeFile (dirPath ++ "/" ++ name) name content s
    analyzeDirectory dirPath s2 rest
  | FsTree.dir name children :: rest =>
    let s2 := if skipEntry name then s else analyzeDirectory (dirPath ++ "/" ++ name) s children
    analyzeDirectory dirPath s2 rest

/-- `Math.round` on an exact rational: round half toward positive infinity. -/
def jsRound (q : ℚ) : ℤ :=
  Int.floor (q + 1 / 2)

/-- The rounding the spec describes: `x` rounded to 2 decimal places. -/
def roundTo2 (q : ℚ) : ℚ :=
  ((Int.floor (q * 100 + 1 / 2) : ℤ) : ℚ) / 100

/-- The metrics object returned by `computeMetrics` (`analyzer.js`
lines 160-172). -/
structure RepositoryMetrics where
  totalFiles : Nat
  totalLines : Nat
  commentLines : Nat
  commentsRatio : ℚ
  hasReadme : Bool
  hasTests : Bool
  fileTypes : List (String × Nat)
  codeSamples : List CodeSample
  aiPatterns : AiPatterns
deriving DecidableEq, Repr

/-- The return statement of `computeMetrics` (`analyzer.js` lines 159-172):
the derived ratio is `commentLines / totalLines` guarded by `totalLines > 0`,
then `Math.round(ratio * 100) / 100`. -/
def computeMetricsFromStats (stats : Stats) : RepositoryMetrics :=
  let commentsRatio : ℚ :=
    if stats.totalLines > 0 then (stats.commentLines : ℚ) / (stats.totalLines : ℚ) else 0
  { totalFiles := stats.totalFiles,
    totalLines := stats.totalLines,
    commentLines := stats.commentLines,
    commentsRatio := ((jsRound (commentsRatio * 100) : ℤ) : ℚ) / 100,
    hasReadme := stats.hasReadme,
    hasTests := stats.hasTests,
    fileTypes := stats.fileTypes,
    codeSamples := stats.codeSamples.take 10,
    aiPatterns := stats.aiPatterns }

/-- The Node-side metrics object handed to `mergeMetrics`: the
`computeMetrics` result after `analyzeRepository` attached `usedBranch`
(`analyzer.js` line 29).  The `highlights` field models the JS property
access `nodeMetrics.highlights`, which is absent (`none`) in the actual
pipeline. -/
structure NodeMetrics where
  totalFiles : Nat
  totalLines : Nat
  commentLines : Nat
  commentsRatio : ℚ
  hasReadme : Bool
  hasTests : Bool
  fileTypes : List (String × Nat)
  usedBranch : Option String
  codeSamples : List CodeSample
  aiPatterns : AiPatterns
  highlights : Option (List String)
deriving DecidableEq, Repr

/-- The Python-side metrics object as a JS record: either the parsed record
of the secondary analyzer or the error marker `{ error: message }` built by
`analyzeRepository` (`analyzer.js` line 38); absent properties are `none`. -/
structure PyMetrics where
  error : Option String
  comments_score : Option ℚ
  naming_score : Option ℚ
  tests_score : Option ℚ
  examples_score : Option ℚ
  highlights : Option (List String)
deriving DecidableEq, Repr

/-- JS truthiness of `pythonMetrics.error` (`pythonIntegration.js`
line 114): present and a non-empty string. -/
def pyErrTruthy (pm : PyMetrics) : Bool :=
  match pm.error with
  | some s => decide (s ≠ "")
  | none => false

/-- The nested `pythonAnalysis` value of the combined metrics: either the
embedded error record or the normalized sub-scores plus highlights. -/
inductive PyAnalysis where
  | errRec (msg : String)
  | scores (comments_score naming_score tests_score examples_score : ℚ)
      (highlights : List String)
deriving DecidableEq, Repr

/-- The combined metrics object produced by `mergeMetrics`
(`pythonIntegration.js` lines 112-157); `combinedHighlights` is absent
(`none`) on the error path, which only spreads the node metrics. -/
structure CombinedMetrics where
  totalFiles : Nat
  totalLines : Nat
  commentLines : Nat
  commentsRatio : ℚ
  hasReadme : Bool
  hasTests : Bool
  fileTypes : List (String × Nat)
  usedBranch : Option String
  codeSamples : List CodeSample
  aiPatterns : AiPatterns
  pythonAnalysis : PyAnalysis
  combinedHighlights : Option (List String)
  combined : Bool
deriving DecidableEq, Repr

/-- `mergeMetrics` (`pythonIntegration.js` lines 112-157). -/
def mergeMetrics (nm : NodeMetrics) (pm : PyMetrics) : CombinedMetrics :=
  if pyErrTruthy pm then
    { totalFiles := nm.totalFiles, totalLines := nm.totalLines,
      commentLines := nm.commentLines, commentsRatio := nm.commentsRatio,
      hasReadme := nm.hasReadme, hasTests := nm.hasTests,
      fileTypes := nm.fileTypes, usedBranch := nm.usedBranch,
      codeSamples := nm.codeSamples, aiPatterns := nm.aiPatterns,
      pythonAnalysis := PyAnalysis.errRec (pm.error.getD ""),
      combinedHighlights := none,
      combined := true }
  else
    { totalFiles := nm.totalFiles, totalLines := nm.totalLines,
      commentLines := nm.commentLines, commentsRatio := nm.commentsRatio,
      hasReadme := nm.hasReadme, hasTests := nm.hasTests,
      fileTypes := nm.fileTypes, usedBranch := nm.usedBranch,
      codeSamples := nm.codeSamples, aiPatterns := nm.aiPatterns,
      pythonAnalysis := PyAnalysis.scores (pm.comments_score.getD 0)
        (pm.naming_score.getD 0) (pm.tests_score.getD 0) (pm.examples_score.getD 0)
        (pm.highlights.getD []),
      combinedHighlights := some (dedupFirst (nm.highlights.getD [] ++ pm.highlights.getD [])),
      combined := true }

/-- All the primary (`RepositoryMetrics`) fields of the merge result are the
node analyzer's values, unchanged. -/
def preservesPrimary (nm : NodeMetrics) (cm : CombinedMetrics) : Prop :=
  cm.totalFiles = nm.totalFiles ∧ cm.totalLines = nm.totalLines ∧
  cm.commentLines = nm.commentLines ∧ cm.commentsRatio = nm.commentsRatio ∧
  cm.hasReadme = nm.hasReadme ∧ cm.hasTests = nm.hasTests ∧
  cm.fileTypes = nm.fileTypes ∧ cm.usedBranch = nm.usedBranch ∧
  cm.codeSamples = nm.codeSamples ∧ cm.aiPatterns = nm.aiPatterns

/-- Outcome of the spawned secondary analyzer process as observed by
`pythonIntegration.analyzeRepository`: exit with captured streams, the
60-second timeout kill, or a spawn error. -/
inductive ProcOutcome where
  | exited (code : ℤ) (stdoutStr : String) (stderrStr : String)
  | timeout
  | startError (msg : String)

/-- The JSON-line scan of `pythonIntegration.js` lines 42-52: trim the
captured stdout, split into lines, and take the last trimmed line that
starts with a left brace and ends with a right brace. -/
def findJsonLine (stdoutStr : String) : Option String :=
  (((splitLinesS (jsTrimS stdoutStr)).reverse).map jsTrimS).find?
    (fun t => strStartsWith t "\x7b" && strEndsWith t "\x7d")

/-- `pythonIntegration.analyzeRepository` (`pythonIntegration.js`
lines 14-78) as a function of the process outcome; `parse` stands for
`JSON.parse` restricted to the expected record shape. -/
def pythonAnalyze (parse : String → Option PyMetrics) (o : ProcOutcome) :
    Except String PyMetrics :=
  match o with
  | ProcOutcome.startError msg =>
    Except.error ("Failed to start Python analyzer: " ++ msg)
  | ProcOutcome.timeout => Except.error "Python analyzer timeout"
  | ProcOutcome.exited code stdoutStr stderrStr =>
    if code ≠ 0 then
      Except.error ("Python analyzer failed with code " ++ toString code ++ ": " ++ stderrStr)
    else
      match findJsonLine stdoutStr with
      | none => Except.error "Failed to parse Python analyzer output: No valid JSON found in Python output"
      | some line =>
        match parse line with
        | some pm => Except.ok pm
        | none => Except.error "Failed to parse Python analyzer output: unexpected token"

/-- The error marker `{ error: message }` built by the `catch` in
`analyzer.analyzeRepository` (`analyzer.js` line 38). -/
def pmErr (m : String) : PyMetrics :=
  { error := some m, comments_score := none, naming_score := none,
    tests_score := none, examples_score := none, highlights := none }

/-- Lines 31-39 of `analyzer.js`: run the Python stage and degrade any
rejection into the error marker. -/
def runPythonStage (parse : String → Option PyMetrics) (o : ProcOutcome) : PyMetrics :=
  match pythonAnalyze parse o with
  | Except.ok v => v
  | Except.error m => pmErr m

/-- Lines 31-45 of `analyzer.js`: the secondary stage followed by the merge. -/
def analyzeWithSecondary (parse : String → Option PyMetrics) (nm : NodeMetrics)
    (o : ProcOutcome) : CombinedMetrics :=
  mergeMetrics nm (runPythonStage parse o)

/-- The score report shape of the Scoring Engine (spec section 3). -/
structure ScoreReport where
  aiPatterns : ℚ
  codeStructure : ℚ
  documentation : ℚ
  complexity : ℚ
  overall : ℚ
  isVibeCoded : Bool
  verdict : String
  highlights : List String
deriving DecidableEq, Repr

/-- Clamp a rational into the interval `[0, 10]`. -/
def clamp10 (q : ℚ) : ℚ :=
  max 0 (min 10 q)

/-- Total number of tripped AI-pattern signals across the repository. -/
def aiSignalTotal (cm : CombinedMetrics) : ℚ :=
  ((cm.aiPatterns.genericNames + cm.aiPatterns.perfectFormatting +
    cm.aiPatterns.boilerplateCode + cm.aiPatterns.repetitivePatterns : Nat) : ℚ)

/-- Modelled from the spec: `src/backend/src/llm.js` (the Scoring Engine and
its deterministic local fallback) is not under `src/`; only its callers are.
Spec section 4.7 requires the fallback to be a pure, total function of
`CombinedMetrics` returning the four named sub-scores, each in `[0, 10]`.
AI-pattern sub-score of the fallback: signal density clamped to `[0, 10]`. -/
def fbAiScore (cm : CombinedMetrics) : ℚ :=
  clamp10 (10 * aiSignalTotal cm / (4 * max 1 (cm.totalFiles : ℚ)))

/-- Modelled from the spec: code-structure sub-score of the missing fallback
scorer, from the tests/readme flags and the signal density, clamped. -/
def fbStructureScore (cm : CombinedMetrics) : ℚ :=
  clamp10 (5 + (if cm.hasTests then 2 else 0) + (if cm.hasReadme then 1 else 0)
    - aiSignalTotal cm / max 1 (cm.totalFiles : ℚ))

/-- Modelled from the spec: documentation sub-score of the missing fallback
scorer, from the comment ratio and the readme flag, clamped. -/
def fbDocScore (cm : CombinedMetrics) : ℚ :=
  clamp10 (cm.commentsRatio * 20 + (if cm.hasReadme then 3 else 0))

/-- Modelled from the spec: complexity sub-score of the missing fallback
scorer, from average file length, clamped. -/
def fbComplexityScore (cm : CombinedMetrics) : ℚ :=
  clamp10 ((cm.totalLines : ℚ) / (100 * max 1 (cm.totalFiles : ℚ)))

/-- Modelled from the spec: the overall fallback score, the mean of the four
sub-scores. -/
def fbOverall (cm : CombinedMetrics) : ℚ :=
  (fbAiScore cm + fbStructureScore cm + fbDocScore cm + fbComplexityScore cm) / 4

/-- Modelled from the spec: the deterministic local fallback of the Scoring
Engine (spec section 4.7) with a verdict mapping that is monotone in the
overall score. -/
def fallbackScore (cm : CombinedMetrics) : ScoreReport :=
  { aiPatterns := fbAiScore cm,
    codeStructure := fbStructureScore cm,
    documentation := fbDocScore cm,
    complexity := fbComplexityScore cm,
    overall := fbOverall cm,
    isVibeCoded := decide (fbOverall cm ≥ 5),
    verdict :=
      if fbOverall cm ≥ 15 / 2 then "LIKELY AI-GENERATED"
      else if fbOverall cm ≥ 5 then "POSSIBLY AI-GENERATED"
      else "LIKELY HUMAN-WRITTEN",
    highlights := cm.combinedHighlights.getD [] }

/-- The count claimed for `repetitivePatterns` read literally: the number
of LINES whose normalized form occurs more than once (not the number of
distinct repeated forms). -/
def lineRepeatCountClaim (content : String) : Nat :=
  ((normalizedLines content).filter
    (fun f => decide ((normalizedLines content).count f > 1))).length

/-- The claimed repetition ratio over lines. -/
def lineRepeatRatioClaim (content : String) : ℚ :=
  (lineRepeatCountClaim content : ℚ) / (nonEmptyLineCount content : ℚ)

/-- The amended ratio for `repetitivePatterns`: the number of DISTINCT
normalized forms occurring more than once, over the number of non-empty
lines. -/
def distinctRepeatRatio (content : String) : ℚ :=
  (distinctRepeatCount content : ℚ) / (nonEmptyLineCount content : ℚ)

/-- The indentation-consistency ratio as the claim describes it: over the
non-empty lines, the larger of the count with leading-whitespace length
divisible by 4 and the count passing the tab-count check, divided by the
number of non-empty lines; `1` when there are no non-empty lines. -/
def indentationRatioClaim (lines : List String) : ℚ :=
  let nonEmpty := lines.filter (fun l => (jsTrimS l).length > 0)
  if nonEmpty.length = 0 then 1
  else
    let div4 := (nonEmpty.filter (fun l => (l.data.takeWhile isJsSpace).length % 4 == 0)).length
    let tabbed := (nonEmpty.filter (fun l => decide ((l.data.takeWhile isJsSpace).length > 0))).length
    ((max div4 tabbed : Nat) : ℚ) / (nonEmpty.length : ℚ)

/-- A concrete node-metrics value used to instantiate merge theorems. -/
def nmFix : NodeMetrics :=
  { totalFiles := 2, totalLines := 10, commentLines := 3, commentsRatio := 3 / 10,
    hasReadme := true, hasTests := false, fileTypes := [(".js", 2)],
    usedBranch := some "main", codeSamples := [],
    aiPatterns := { genericNames := 1, perfectFormatting := 0,
                    boilerplateCode := 0, repetitivePatterns := 0 },
    highlights := some ["a", "b", "a"] }

/-- A concrete error-marker secondary-metrics value. -/
def pmErrFix : PyMetrics :=
  pmErr "Python analyzer timeout"

/-- A concrete successful secondary-metrics value with a missing sub-score
and overlapping highlights. -/
def pmOkFix : PyMetrics :=
  { error := none, comments_score := some 7, naming_score := none,
    tests_score := some 0, examples_score := some 5, highlights := some ["b", "c"] }

/-- A file content with exactly 6 generic-name regex matches. -/
def sixGenericContent : String :=
  "temp temp temp temp temp temp"

/-- A file content with exactly 11 generic-name regex matches. -/
def elevenGenericContent : String :=
  "temp temp temp temp temp temp temp temp temp temp temp"

/-- Zeroed AI-pattern counters. -/
def apZero : AiPatterns :=
  { genericNames := 0, perfectFormatting := 0, boilerplateCode := 0,
    repetitivePatterns := 0 }

/-- A parse function that accepts nothing, for concrete failure scenarios. -/
def parseNoneFix : String → Option PyMetrics :=
  fun _ => none

lemma clamp10_nonneg (q : ℚ) : 0 ≤ clamp10 q :=
  le_max_left 0 _

lemma clamp10_le_ten (q : ℚ) : clamp10 q ≤ 10 :=
  max_le (by norm_num) (min_le_left _ _)

lemma mem_dedupGo (x : String) : ∀ (seen l : List String),
    x ∈ dedupGo seen l ↔ x ∈ l ∧ x ∉ seen := by
  intro seen l
  induction l generalizing seen with
  | nil => simp [dedupGo]
  | cons h t ih =>
    by_cases hs : h ∈ seen
    · rw [dedupGo, if_pos hs, ih]
      constructor
      · rintro ⟨hx, hxs⟩
        exact ⟨List.mem_cons_of_mem _ hx, hxs⟩
      · rintro ⟨hx, hxs⟩
        rcases List.mem_cons.mp hx with rfl | hx2
        · exact absurd hs hxs
        · exact ⟨hx2, hxs⟩
    · rw [dedupGo, if_neg hs]
      constructor
      · intro hx
        rcases List.mem_cons.mp hx with rfl | hx2
        · exact ⟨List.mem_cons_self _ _, hs⟩
        · have h2 := (ih (h :: seen)).mp hx2
          exact ⟨List.mem_cons_of_mem _ h2.1, fun hy => h2.2 (List.mem_cons_of_mem _ hy)⟩
      · rintro ⟨hx, hxs⟩
        rcases List.mem_cons.mp hx with rfl | hx2
        · exact List.mem_cons_self _ _
        · by_cases hxh : x = h
          · subst hxh
            exact List.mem_cons_self _ _
          · refine List.mem_cons_of_mem _ ((ih (h :: seen)).mpr ⟨hx2, ?_⟩)
            intro hy
            rcases List.mem_cons.mp hy with e | hy2
            · exact hxh e
            · exact hxs hy2

lemma nodup_dedupGo : ∀ (seen l : List String), (dedupGo seen l).Nodup := by
  intro seen l
  induction l generalizing seen with
  | nil => simp [dedupGo]
  | cons h t ih =>
    by_cases hs : h ∈ seen
    · rw [dedupGo, if_pos hs]
      exact ih seen
    · rw [dedupGo, if_neg hs]
      refine List.nodup_cons.mpr ⟨?_, ih (h :: seen)⟩
      intro hmem
      exact ((mem_dedupGo h (h :: seen) t).mp hmem).2 (List.mem_cons_self _ _)

lemma sublist_dedupGo : ∀ (seen l : List String), List.Sublist (dedupGo seen l) l := by
  intro seen l
  induction l generalizing seen with
  | nil => simp [dedupGo]
  | cons h t ih =>
    by_cases hs : h ∈ seen
    · rw [dedupGo, if_pos hs]
      exact (ih seen).cons h
    · rw [dedupGo, if_neg hs]
      exact (ih (h :: seen)).cons₂ h

lemma firstIdx_dedupGo_lt : ∀ (seen l : List String) (x y : String),
    x ∈ l → y ∈ l → x ∉ seen → y ∉ seen →
    firstIdx x l < firstIdx y l →
    firstIdx x (dedupGo seen l) < firstIdx y (dedupGo seen l) := by
  intro seen l
  induction l generalizing seen with
  | nil => intro x y hx; exact absurd hx (List.not_mem_nil x)
  | cons h t ih =>
    intro x y hx hy hxs hys hlt
    by_cases hs : h ∈ seen
    · have hhx : ¬(h = x) := fun e => hxs (e ▸ hs)
      have hhy : ¬(h = y) := fun e => hys (e ▸ hs)
      rw [dedupGo, if_pos hs]
      rw [firstIdx, if_neg hhx, firstIdx, if_neg hhy, Nat.add_lt_add_iff_right] at hlt
      refine ih seen x y ?_ ?_ hxs hys hlt
      · rcases List.mem_cons.mp hx with rfl | hx2
        · exact absurd rfl hhx
        · exact hx2
      · rcases List.mem_cons.mp hy with rfl | hy2
        · exact absurd rfl hhy
        · exact hy2
    · rw [dedupGo, if_neg hs]
      by_cases hhx : h = x
      · have hhy : ¬(h = y) := by
          intro e
          rw [firstIdx, if_pos hhx, firstIdx, if_pos e] at hlt
          exact Nat.lt_irrefl 0 hlt
        rw [firstIdx, if_pos hhx, firstIdx, if_neg hhy]
        exact Nat.succ_pos _
      · have hhy : ¬(h = y) := by
          intro e
          rw [firstIdx, if_neg hhx, firstIdx, if_pos e] at hlt
          exact Nat.not_lt_zero _ hlt
        rw [firstIdx, if_neg hhx, firstIdx, if_neg hhy]
        rw [firstIdx, if_neg hhx, firstIdx, if_neg hhy, Nat.add_lt_add_iff_right] at hlt
        rw [Nat.add_lt_add_iff_right]
        have hx2 : x ∈ t := by
          rcases List.mem_cons.mp hx with rfl | hx2
          · exact absurd rfl hhx
          · exact hx2
        have hy2 : y ∈ t := by
          rcases List.mem_cons.mp hy with rfl | hy2
          · exact absurd rfl hhy
          · exact hy2
        refine ih (h :: seen) x y hx2 hy2 ?_ ?_ hlt
        · intro hmem
          rcases List.mem_cons.mp hmem with e | hm2
          · exact hhx e.symm
          · exact hxs hm2
        · intro hmem
          rcases List.mem_cons.mp hmem with e | hm2
          · exact hhy e.symm
          · exact hys hm2

lemma mem_dedupFirst (x : String) (l : List String) : x ∈ dedupFirst l ↔ x ∈ l := by
  rw [dedupFirst, mem_dedupGo]
  simp

lemma nodup_dedupFirst (l : List String) : (dedupFirst l).Nodup :=
  nodup_dedupGo [] l

lemma sublist_dedupFirst (l : List String) : List.Sublist (dedupFirst l) l :=
  sublist_dedupGo [] l

lemma firstIdx_dedupFirst_lt (l : List String) (x y : String)
    (hx : x ∈ l) (hy : y ∈ l) (hlt : firstIdx x l < firstIdx y l) :
    firstIdx x (dedupFirst l) < firstIdx y (dedupFirst l) :=
  firstIdx_dedupGo_lt [] l x y hx hy (List.not_mem_nil x) (List.not_mem_nil y) hlt

lemma computeMetrics_ratio (s : Stats) :
    (computeMetricsFromStats s).commentsRatio =
      (if s.totalLines = 0 then 0
       else roundTo2 ((s.commentLines : ℚ) / (s.totalLines : ℚ))) := by
  by_cases h : s.totalLines = 0
  · rw [if_pos h]
    simp only [computeMetricsFromStats, h, jsRound]
    norm_num
  · rw [if_neg h]
    have h2 : s.totalLines > 0 := Nat.pos_of_ne_zero h
    simp only [computeMetricsFromStats, if_pos h2, jsRound, roundTo2]

/-- C1: for every analysis run, the `commentsRatio` field of the returned
repository metrics is `commentLines / totalLines` rounded to 2 decimal
places, and is exactly 0 when `totalLines` is 0. -/
theorem c1_comments_ratio (entries : List FsTree) :
    (computeMetricsFromStats (analyzeDirectory "repo" initialStats entries)).commentsRatio =
      (if (analyzeDirectory "repo" initialStats entries).totalLines = 0 then 0
       else roundTo2 (((analyzeDirectory "repo" initialStats entries).commentLines : ℚ) /
         ((analyzeDirectory "repo" initialStats entries).totalLines : ℚ))) :=
  computeMetrics_ratio (analyzeDirectory "repo" initialStats entries)

/-- C2: the deterministic local fallback of the Scoring Engine (modelled
from the spec, the engine source being outside `src/`) is total by
construction and returns the four sub-scores and the overall score inside
`[0, 10]` for every combined-metrics value. -/
theorem c2_fallback_total_bounded (cm : CombinedMetrics) :
    (0 ≤ (fallbackScore cm).aiPatterns ∧ (fallbackScore cm).aiPatterns ≤ 10) ∧
    (0 ≤ (fallbackScore cm).codeStructure ∧ (fallbackScore cm).codeStructure ≤ 10) ∧
    (0 ≤ (fallbackScore cm).documentation ∧ (fallbackScore cm).documentation ≤ 10) ∧
    (0 ≤ (fallbackScore cm).complexity ∧ (fallbackScore cm).complexity ≤ 10) ∧
    (0 ≤ (fallbackScore cm).overall ∧ (fallbackScore cm).overall ≤ 10) := by
  have hA1 : 0 ≤ fbAiScore cm := by
    unfold fbAiScore
    exact clamp10_nonneg _
  have hA2 : fbAiScore cm ≤ 10 := by
    unfold fbAiScore
    exact clamp10_le_ten _
  have hS1 : 0 ≤ fbStructureScore cm := by
    unfold fbStructureScore
    exact clamp10_nonneg _
  have hS2 : fbStructureScore cm ≤ 10 := by
    unfold fbStructureScore
    exact clamp10_le_ten _
  have hD1 : 0 ≤ fbDocScore cm := by
    unfold fbDocScore
    exact clamp10_nonneg _
  have hD2 : fbDocScore cm ≤ 10 := by
    unfold fbDocScore
    exact clamp10_le_ten _
  have hC1 : 0 ≤ fbComplexityScore cm := by
    unfold fbComplexityScore
    exact clamp10_nonneg _
  have hC2 : fbComplexityScore cm ≤ 10 := by
    unfold fbComplexityScore
    exact clamp10_le_ten _
  have hO1 : 0 ≤ fbOverall cm := by
    unfold fbOverall
    linarith
  have hO2 : fbOverall cm ≤ 10 := by
    unfold fbOverall
    linarith
  exact ⟨⟨hA1, hA2⟩, ⟨hS1, hS2⟩, ⟨hD1, hD2⟩, ⟨hC1, hC2⟩, ⟨hO1, hO2⟩⟩

/-- C3: merging any repository metrics with a secondary-metrics error marker
yields combined metrics that keep every primary field unchanged, embed the
error record in the nested `pythonAnalysis` field, and set `combined = true`
 — the merge itself is a total function and cannot fail. -/
theorem c3_merge_error_marker (nm : NodeMetrics) (pm : PyMetrics)
    (h : pyErrTruthy pm = true) :
    preservesPrimary nm (mergeMetrics nm pm) ∧
    (mergeMetrics nm pm).pythonAnalysis = PyAnalysis.errRec (pm.error.getD "") ∧
    (mergeMetrics nm pm).combined = true := by
  unfold mergeMetrics
  rw [if_pos (by rw [h])]
  exact ⟨⟨rfl, rfl, rfl, rfl, rfl, rfl, rfl, rfl, rfl, rfl⟩, rfl, rfl⟩

/-- Witness for C3 at a concrete error marker. -/
theorem c3_witness :
    pyErrTruthy pmErrFix = true ∧
    (preservesPrimary nmFix (mergeMetrics nmFix pmErrFix) ∧
     (mergeMetrics nmFix pmErrFix).pythonAnalysis = PyAnalysis.errRec (pmErrFix.error.getD "") ∧
     (mergeMetrics nmFix pmErrFix).combined = true) :=
  ⟨by decide, c3_merge_error_marker nmFix pmErrFix (by decide)⟩

/-- C8: merging any repository metrics with any non-error secondary metrics
copies all the primary fields verbatim, defaults each missing named
sub-score to 0 in the nested record, and builds `combinedHighlights` by
concatenating the primary and secondary highlights and removing exact
duplicates: the result has no duplicate strings, contains exactly the
strings of the concatenation, and keeps first-occurrence order. -/
theorem c8_merge_success (nm : NodeMetrics) (pm : PyMetrics)
    (h : pyErrTruthy pm = false) :
    preservesPrimary nm (mergeMetrics nm pm) ∧
    (mergeMetrics nm pm).pythonAnalysis = PyAnalysis.scores (pm.comments_score.getD 0)
      (pm.naming_score.getD 0) (pm.tests_score.getD 0) (pm.examples_score.getD 0)
      (pm.highlights.getD []) ∧
    (mergeMetrics nm pm).combinedHighlights =
      some (dedupFirst (nm.highlights.getD [] ++ pm.highlights.getD [])) ∧
    (dedupFirst (nm.highlights.getD [] ++ pm.highlights.getD [])).Nodup ∧
    (∀ x, x ∈ dedupFirst (nm.highlights.getD [] ++ pm.highlights.getD []) ↔
      x ∈ nm.highlights.getD [] ++ pm.highlights.getD []) ∧
    (∀ x y, x ∈ nm.highlights.getD [] ++ pm.highlights.getD [] →
      y ∈ nm.highlights.getD [] ++ pm.highlights.getD [] →
      firstIdx x (nm.highlights.getD [] ++ pm.highlights.getD []) <
        firstIdx y (nm.highlights.getD [] ++ pm.highlights.getD []) →
      firstIdx x (dedupFirst (nm.highlights.getD [] ++ pm.highlights.getD [])) <
        firstIdx y (dedupFirst (nm.highlights.getD [] ++ pm.highlights.getD []))) := by
  have hif : ¬(pyErrTruthy pm = true) := by
    rw [h]
    simp
  unfold mergeMetrics
  rw [if_neg hif]
  exact ⟨⟨rfl, rfl, rfl, rfl, rfl, rfl, rfl, rfl, rfl, rfl⟩, rfl, rfl,
    nodup_dedupFirst _, fun x => mem_dedupFirst x _,
    fun x y hx hy hlt => firstIdx_dedupFirst_lt _ x y hx hy hlt⟩

/-- Witness for C8 at concrete metrics with a missing sub-score and an
overlapping highlight. -/
theorem c8_witness :
    pyErrTruthy pmOkFix = false ∧
    preservesPrimary nmFix (mergeMetrics nmFix pmOkFix) ∧
    (mergeMetrics nmFix pmOkFix).pythonAnalysis = PyAnalysis.scores 7 0 0 5 ["b", "c"] ∧
    (mergeMetrics nmFix pmOkFix).combinedHighlights = some ["a", "b", "c"] := by
  have h := c8_merge_success nmFix pmOkFix (by decide)
  refine ⟨by decide, h.1, ?_, ?_⟩
  · rw [h.2.1]
    decide
  · rw [h.2.2.1]
    decide

lemma pyFailMsg_ne (code : ℤ) (st : String) :
    ("Python analyzer failed with code " ++ toString code ++ ": " ++ st) ≠ "" := by
  intro h
  have h2 := congrArg String.length h
  rw [String.length_append, String.length_append, String.length_append] at h2
  have h3 : 0 < String.length "Python analyzer failed with code " := by decide
  rw [show String.length "" = 0 from rfl] at h2
  omega

lemma mergeMetrics_pmErr (nm : NodeMetrics) (m : String) (hm : m ≠ "") :
    preservesPrimary nm (mergeMetrics nm (pmErr m)) ∧
    (mergeMetrics nm (pmErr m)).pythonAnalysis = PyAnalysis.errRec m := by
  have ht : pyErrTruthy (pmErr m) = true := by
    simp [pyErrTruthy, pmErr, hm]
  unfold mergeMetrics
  rw [if_pos (by rw [ht])]
  exact ⟨⟨rfl, rfl, rfl, rfl, rfl, rfl, rfl, rfl, rfl, rfl⟩, by simp [pmErr]⟩

/-- C7: each secondary-analyzer failure mode — non-zero exit code, no line
of the output parseable as a complete record by the last-to-first brace
scan, or the timeout — degrades into a secondary-metrics error marker
embedded in the combined metrics, with every primary field preserved, so
the analysis completes with the primary metrics alone instead of
propagating an exception. -/
theorem c7_failure_modes (parse : String → Option PyMetrics) (nm : NodeMetrics)
    (code : ℤ) (out errS : String)
    (h : code ≠ 0 ∨ findJsonLine out = none) :
    ((∃ m, m ≠ "" ∧
       (analyzeWithSecondary parse nm (ProcOutcome.exited code out errS)).pythonAnalysis =
         PyAnalysis.errRec m) ∧
     preservesPrimary nm (analyzeWithSecondary parse nm (ProcOutcome.exited code out errS))) ∧
    ((∃ m, m ≠ "" ∧
       (analyzeWithSecondary parse nm ProcOutcome.timeout).pythonAnalysis =
         PyAnalysis.errRec m) ∧
     preservesPrimary nm (analyzeWithSecondary parse nm ProcOutcome.timeout)) := by
  constructor
  · have hstep : ∃ m, m ≠ "" ∧
        pythonAnalyze parse (ProcOutcome.exited code out errS) = Except.error m := by
      by_cases hc : code ≠ 0
      · refine ⟨"Python analyzer failed with code " ++ toString code ++ ": " ++ errS,
          pyFailMsg_ne code errS, ?_⟩
        simp [pythonAnalyze, hc]
      · push_neg at hc
        rcases h with hc2 | hj
        · exact absurd hc hc2
        · refine ⟨"Failed to parse Python analyzer output: No valid JSON found in Python output",
            by decide, ?_⟩
          simp [pythonAnalyze, hc, hj]
    obtain ⟨m, hm, he⟩ := hstep
    have hr : runPythonStage parse (ProcOutcome.exited code out errS) = pmErr m := by
      unfold runPythonStage
      rw [he]
    have hmg := mergeMetrics_pmErr nm m hm
    unfold analyzeWithSecondary
    rw [hr]
    exact ⟨⟨m, hm, hmg.2⟩, hmg.1⟩
  · have hr : runPythonStage parse ProcOutcome.timeout = pmErr "Python analyzer timeout" := rfl
    have hmg := mergeMetrics_pmErr nm "Python analyzer timeout" (by decide)
    unfold analyzeWithSecondary
    rw [hr]
    exact ⟨⟨"Python analyzer timeout", by decide, hmg.2⟩, hmg.1⟩

/-- Witness for C7 at a non-zero exit code and at the timeout. -/
theorem c7_witness :
    ((1 : ℤ) ≠ 0 ∨ findJsonLine "no json here" = none) ∧
    ((∃ m, m ≠ "" ∧
       (analyzeWithSecondary parseNoneFix nmFix (ProcOutcome.exited 1 "no json here" "boom")).pythonAnalysis =
         PyAnalysis.errRec m) ∧
     preservesPrimary nmFix (analyzeWithSecondary parseNoneFix nmFix (ProcOutcome.exited 1 "no json here" "boom"))) ∧
    ((∃ m, m ≠ "" ∧
       (analyzeWithSecondary parseNoneFix nmFix ProcOutcome.timeout).pythonAnalysis =
         PyAnalysis.errRec m) ∧
     preservesPrimary nmFix (analyzeWithSecondary parseNoneFix nmFix ProcOutcome.timeout)) :=
  ⟨Or.inl (by decide),
   (c7_failure_modes parseNoneFix nmFix 1 "no json here" "boom" (Or.inl (by decide))).1,
   (c7_failure_modes parseNoneFix nmFix 1 "no json here" "boom" (Or.inl (by decide))).2⟩

/-- C9: the Directory Walker never visits an entry whose name starts with a
dot or is one of the fixed ignore-set, so filtering those entries out of any
directory level leaves the accumulated repository metrics unchanged. -/
theorem c9_walker_skips :
    (∀ (dirPath : String) (s : Stats) (entries : List FsTree),
      analyzeDirectory dirPath s (entries.filter (fun e => !skipEntry (fsName e))) =
        analyzeDirectory dirPath s entries) ∧
    skipEntry "node_modules" = true ∧ skipEntry "dist" = true ∧
    skipEntry "build" = true ∧ skipEntry ".git" = true ∧
    (∀ name : String, strStartsWith name "." = true → skipEntry name = true) := by
  refine ⟨?_, by decide, by decide, by decide, by decide, ?_⟩
  · intro dirPath s entries
    induction entries generalizing s with
    | nil => rfl
    | cons e rest ih =>
      cases e with
      | file name content =>
        by_cases hs : skipEntry name = true
        · have hf : List.filter (fun e => !skipEntry (fsName e)) (FsTree.file name content :: rest)
              = List.filter (fun e => !skipEntry (fsName e)) rest := by
            simp [List.filter_cons, fsName, hs]
          rw [hf, ih s]
          simp [analyzeDirectory, hs]
        · have hf : List.filter (fun e => !skipEntry (fsName e)) (FsTree.file name content :: rest)
              = FsTree.file name content :: List.filter (fun e => !skipEntry (fsName e)) rest := by
            simp [List.filter_cons, fsName, hs]
          rw [hf]
          simp only [analyzeDirectory, if_neg hs]
          exact ih _
      | dir name children =>
        by_cases hs : skipEntry name = true
        · have hf : List.filter (fun e => !skipEntry (fsName e)) (FsTree.dir name children :: rest)
              = List.filter (fun e => !skipEntry (fsName e)) rest := by
            simp [List.filter_cons, fsName, hs]
          rw [hf, ih s]
          simp [analyzeDirectory, hs]
        · have hf : List.filter (fun e => !skipEntry (fsName e)) (FsTree.dir name children :: rest)
              = FsTree.dir name children :: List.filter (fun e => !skipEntry (fsName e)) rest := by
            simp [List.filter_cons, fsName, hs]
          rw [hf]
          simp only [analyzeDirectory, if_neg hs]
          exact ih _
  · intro name h
    simp [skipEntry, h]

/-- Witness for C9: a dotted name is skipped and a `node_modules` subtree
contributes nothing. -/
theorem c9_witness :
    skipEntry ".env" = true ∧
    analyzeDirectory "repo" initialStats
      [FsTree.dir "node_modules" [FsTree.file "x.js" "function f() ..."]] = initialStats := by
  refine ⟨c9_walker_skips.2.2.2.2.2 ".env" rfl, ?_⟩
  have h := c9_walker_skips.1 "repo" initialStats
    [FsTree.dir "node_modules" [FsTree.file "x.js" "function f() ..."]]
  have hf : List.filter (fun e => !skipEntry (fsName e))
      [FsTree.dir "node_modules" [FsTree.file "x.js" "function f() ..."]] = ([] : List FsTree) := by
    simp [List.filter_cons, fsName, show skipEntry "node_modules" = true by decide]
  rw [hf] at h
  rw [← h]
  simp [analyzeDirectory]

lemma lineIsComment_outside (ext t : String) (h : ext ∉ commentFamilyExts) :
    lineIsComment ext t = false := by
  simp only [commentFamilyExts, List.mem_cons, List.not_mem_nil, or_false, not_or] at h
  obtain ⟨h1, h2, h3, h4, h5, h6, h7, h8, h9, h10, h11, h12,
    h13, h14, h15, h16, h17, h18⟩ := h
  simp [lineIsComment, h1, h2, h3, h4, h5, h6, h7, h8, h9, h10, h11, h12,
    h13, h14, h15, h16, h17, h18]

/-- C10: for extensions outside the six comment-prefix families the Comment
Counter returns 0 on every content (so `.md`, `.json`, `.yaml`, `.go`,
`.rb`, `.rs`, `.php` files, all of which are counted as text files,
contribute lines but never comment lines), and on every input the count
never exceeds the number of non-empty lines. -/
theorem c10_comment_counter :
    (∀ (content ext : String), ext ∉ commentFamilyExts →
      countCommentLines content ext = 0) ∧
    (∀ (content ext : String),
      countCommentLines content ext ≤ nonEmptyLineCount content) ∧
    ([".md", ".json", ".yaml", ".go", ".rb", ".rs", ".php"].all isTextFile = true) := by
  refine ⟨?_, ?_, by decide⟩
  · intro content ext h
    unfold countCommentLines
    rw [List.length_eq_zero]
    apply List.filter_eq_nil_iff.mpr
    intro l _
    simp [lineIsComment_outside ext _ h]
  · intro content ext
    unfold countCommentLines nonEmptyLineCount
    rw [← List.countP_eq_length_filter, ← List.countP_eq_length_filter]
    apply List.countP_mono_left
    intro l _ hp
    have h2 := (Bool.and_eq_true _ _).mp hp
    exact h2.1

/-- Witness for C10: a Markdown file whose lines begin with a hash yields no
comment lines although it is counted as a text file. -/
theorem c10_witness :
    (".md" ∉ commentFamilyExts) ∧ isTextFile ".md" = true ∧
    countCommentLines "# not a comment\n## heading" ".md" = 0 :=
  ⟨by decide, by decide,
   c10_comment_counter.1 "# not a comment\n## heading" ".md" (by decide)⟩

lemma analyzeCodeContent_deltas (content ext : String) (ap : AiPatterns) :
    (analyzeCodeContent content ext ap).genericNames =
      ap.genericNames + (if genericNamesCount content > 5 then 1 else 0) ∧
    (analyzeCodeContent content ext ap).perfectFormatting =
      ap.perfectFormatting +
        (if checkIndentationConsistency (splitLinesS content) > 95 / 100 then 1 else 0) ∧
    (analyzeCodeContent content ext ap).boilerplateCode =
      ap.boilerplateCode + (if boilerplateCodeCount content > 3 then 1 else 0) ∧
    (analyzeCodeContent content ext ap).repetitivePatterns =
      ap.repetitivePatterns + (if detectRepetitivePatterns content > 3 / 10 then 1 else 0) := by
  simp only [analyzeCodeContent]
  split_ifs <;> simp

/-- C5: each tripped pattern signal increments exactly its own counter by
exactly one per file, never more; in particular the `genericNames` counter
grows by exactly one both for a content with 6 total generic-name matches
and for one with 11. -/
theorem c5_signal_increments :
    (∀ (content ext : String) (ap : AiPatterns),
      (analyzeCodeContent content ext ap).genericNames =
        ap.genericNames + (if genericNamesCount content > 5 then 1 else 0) ∧
      (analyzeCodeContent content ext ap).perfectFormatting =
        ap.perfectFormatting +
          (if checkIndentationConsistency (splitLinesS content) > 95 / 100 then 1 else 0) ∧
      (analyzeCodeContent content ext ap).boilerplateCode =
        ap.boilerplateCode + (if boilerplateCodeCount content > 3 then 1 else 0) ∧
      (analyzeCodeContent content ext ap).repetitivePatterns =
        ap.repetitivePatterns + (if detectRepetitivePatterns content > 3 / 10 then 1 else 0)) ∧
    genericNamesCount sixGenericContent = 6 ∧
    (analyzeCodeContent sixGenericContent ".js" apZero).genericNames =
      apZero.genericNames + 1 ∧
    genericNamesCount elevenGenericContent = 11 ∧
    (analyzeCodeContent elevenGenericContent ".js" apZero).genericNames =
      apZero.genericNames + 1 := by
  refine ⟨fun content ext ap => analyzeCodeContent_deltas content ext ap,
    by decide, ?_, by decide, ?_⟩
  · rw [(analyzeCodeContent_deltas sixGenericContent ".js" apZero).1, if_pos (by decide)]
  · rw [(analyzeCodeContent_deltas elevenGenericContent ".js" apZero).1, if_pos (by decide)]

/-- C6: `perfectFormatting` trips exactly when the indentation-consistency
ratio (equal to the claim's description of it) exceeds 0.95, and a content
with no non-empty lines gets the degenerate ratio 1 and always trips. -/
theorem c6_perfect_formatting :
    (∀ (content ext : String) (ap : AiPatterns),
      (analyzeCodeContent content ext ap).perfectFormatting =
        ap.perfectFormatting +
          (if checkIndentationConsistency (splitLinesS content) > 95 / 100 then 1 else 0)) ∧
    (∀ lines : List String, checkIndentationConsistency lines = indentationRatioClaim lines) ∧
    (∀ (content ext : String) (ap : AiPatterns), nonEmptyLineCount content = 0 →
      checkIndentationConsistency (splitLinesS content) = 1 ∧
      (analyzeCodeContent content ext ap).perfectFormatting = ap.perfectFormatting + 1) := by
  refine ⟨fun content ext ap => (analyzeCodeContent_deltas content ext ap).2.1, ?_, ?_⟩
  · intro lines
    simp only [checkIndentationConsistency, indentationRatioClaim]
    rw [show (fun i : Nat => (i % 1 == 0) && decide (i > 0)) = (fun i : Nat => decide (i > 0)) from by
      funext i
      simp [Nat.mod_one]]
    rw [List.filter_map, List.filter_map, List.length_map, List.length_map, List.length_map]
    rfl
  · intro content ext ap h
    have hnil : (splitLinesS content).filter (fun l => (jsTrimS l).length > 0) = [] := by
      unfold nonEmptyLineCount at h
      exact List.length_eq_zero.mp h
    have h1 : checkIndentationConsistency (splitLinesS content) = 1 := by
      simp only [checkIndentationConsistency, hnil]
      simp
    refine ⟨h1, ?_⟩
    rw [(analyzeCodeContent_deltas content ext ap).2.1, h1]
    norm_num

/-- Witness for C6: the empty content has no non-empty lines, its ratio is
the degenerate 1, and the signal trips. -/
theorem c6_witness :
    nonEmptyLineCount "" = 0 ∧
    checkIndentationConsistency (splitLinesS "") = 1 ∧
    (analyzeCodeContent "" ".js" apZero).perfectFormatting = apZero.perfectFormatting + 1 := by
  have h := c6_perfect_formatting.2.2 "" ".js" apZero (by decide)
  exact ⟨by decide, h.1, h.2⟩

/-- Counterexample for C4: five identical lines "a" have claim-ratio 1
(every line's normalized form recurs), above the 0.3 threshold, and at
least 5 non-empty lines, yet the code does not trip `repetitivePatterns`
because it counts distinct repeated forms (here 1 of 5, ratio 0.2). -/
theorem c4_counterexample :
    5 ≤ nonEmptyLineCount "a\na\na\na\na" ∧
    lineRepeatRatioClaim "a\na\na\na\na" > 3 / 10 ∧
    (analyzeCodeContent "a\na\na\na\na" ".js" apZero).repetitivePatterns =
      apZero.repetitivePatterns := by
  refine ⟨by decide, ?_, ?_⟩
  · unfold lineRepeatRatioClaim
    rw [show lineRepeatCountClaim "a\na\na\na\na" = 5 from by decide,
        show nonEmptyLineCount "a\na\na\na\na" = 5 from by decide]
    norm_num
  · rw [(analyzeCodeContent_deltas "a\na\na\na\na" ".js" apZero).2.2.2]
    have hd : detectRepetitivePatterns "a\na\na\na\na" = ((1 : Nat) : ℚ) / ((5 : Nat) : ℚ) := by
      unfold detectRepetitivePatterns
      rw [if_neg (by decide),
          show distinctRepeatCount "a\na\na\na\na" = 1 from by decide,
          show nonEmptyLineCount "a\na\na\na\na" = 5 from by decide]
    rw [hd, if_neg (by norm_num)]
    rfl

/-- C4 amended: `repetitivePatterns` trips exactly when the content has at
least 5 non-empty lines and the number of DISTINCT normalized line forms
occurring more than once, divided by the number of non-empty lines,
exceeds 0.3; below 5 non-empty lines it never trips. -/
theorem c4_amended (content ext : String) (ap : AiPatterns) :
    (analyzeCodeContent content ext ap).repetitivePatterns =
      ap.repetitivePatterns +
        (if 5 ≤ nonEmptyLineCount content ∧ distinctRepeatRatio content > 3 / 10
         then 1 else 0) := by
  rw [(analyzeCodeContent_deltas content ext ap).2.2.2]
  by_cases h5 : 5 ≤ nonEmptyLineCount content
  · have he : detectRepetitivePatterns content = distinctRepeatRatio content := by
      simp only [detectRepetitivePatterns, distinctRepeatRatio]
      rw [if_neg]
      omega
    rw [he]
    by_cases hr : distinctRepeatRatio content > 3 / 10
    · rw [if_pos hr, if_pos ⟨h5, hr⟩]
    · rw [if_neg hr, if_neg (fun hc => hr hc.2)]
  · have he : detectRepetitivePatterns content = 0 := by
      simp only [detectRepetitivePatterns]
      rw [if_pos]
      omega
    rw [he, if_neg (by norm_num), if_neg (fun hc => h5 hc.1)]
